import Mathlib

/-!
Verification of the QuantVault portfolio analytics and what-if simulation
engine.  The definitions below are shallow embeddings of the TypeScript
source: the tax-lot ledger and FIFO sale processing
(apps/api/src/routes/transactions.ts, positions.ts), the return and risk
statistics (apps/api/src/services/calculation-service.ts), and the what-if
simulation pipeline (apps/api/src/routes/analysis.ts).

Conventions of the embedding:
* JavaScript numbers are modelled as rationals; the statistics that apply
  `Math.sqrt` live in the reals.
* Nullable Prisma `Decimal` fields are `Option ℚ`.  A present `Decimal`
  object is truthy in JavaScript even when its value is zero, so
  `a || b` on a nullable Decimal is `Option.getD` (`decOr` below), while
  `Number(x) || b` applies number truthiness (zero is falsy, `numOr` below).
* A division whose JavaScript result can be non-finite (NaN or Infinity)
  is modelled with `jsDiv`, which returns `none` exactly when the
  denominator is zero.
* `Math.random()` draws are passed in explicitly as a `jitter` list.
* Database mutation sequences are modelled as pure state-passing functions.
-/

namespace QuantVault

/-- JavaScript `a || b` where `a` is a nullable Prisma Decimal: `null` is
falsy, but a Decimal object is truthy even when it holds zero.  Models
`Number(p.currentPrice || p.avgCostBasis)` on database rows. -/
def decOr (value : Option ℚ) (fallback : ℚ) : ℚ :=
  value.getD fallback

/-- JavaScript `Number(a) || b`: both `null` (which converts to 0) and a
zero value are falsy.  Models `Number(p.marketValue) || fallback`. -/
def numOr (value : Option ℚ) (fallback : ℚ) : ℚ :=
  match value with
  | some v => if v = 0 then fallback else v
  | none => fallback

/-- Division as JavaScript performs it: `none` marks the non-finite result
(Infinity or NaN) produced when the denominator is zero. -/
def jsDiv (a b : ℚ) : Option ℚ :=
  if b = 0 then none else some (a / b)

/-- Risk-free rate constant from calculation-service.ts (`0.05`, 5% annually). -/
def RISK_FREE_RATE : ℚ := 5 / 100

/-! ## Tax Lot Ledger (transactions.ts, positions.ts) -/

/-- One tax lot row: a discrete purchase event for a position.
`purchaseDate` is an epoch timestamp in milliseconds. -/
structure TaxLot where
  quantity : ℚ
  costBasis : ℚ
  purchaseDate : ℤ
  soldQuantity : ℚ
  isWashSale : Bool
  deriving DecidableEq, Repr

/-- `processFIFOSale` from transactions.ts: walk the lots in the given
order (the caller supplies them ordered by purchase date ascending); for
each lot with positive available quantity consume
`Math.min(availableQty, remainingToSell)`, incrementing its sold quantity;
break once nothing remains to sell. -/
def processFIFOSale (lots : List TaxLot) (quantityToSell : ℚ) : List TaxLot :=
  match lots with
  | [] => []
  | lot :: rest =>
    if quantityToSell ≤ 0 then lot :: rest
    else
      let availableQty := lot.quantity - lot.soldQuantity
      if availableQty ≤ 0 then lot :: processFIFOSale rest quantityToSell
      else
        let sellFromThisLot := min availableQty quantityToSell
        { lot with soldQuantity := lot.soldQuantity + sellFromThisLot } ::
          processFIFOSale rest (quantityToSell - sellFromThisLot)

/-- Total remaining (unsold) quantity across a lot list. -/
def lotsRemaining (lots : List TaxLot) : ℚ :=
  (lots.map (fun l => l.quantity - l.soldQuantity)).sum

/-- Total quantity actually consumable by a FIFO sale: lots whose sold
quantity already reaches their quantity contribute nothing. -/
def lotsAvailable (lots : List TaxLot) : ℚ :=
  (lots.map (fun l => max (l.quantity - l.soldQuantity) 0)).sum

/-- The mutable state of one position row together with its lot ledger. -/
structure PositionState where
  quantity : ℚ
  avgCostBasis : ℚ
  lots : List TaxLot
  deriving DecidableEq, Repr

/-- Rejection reason of the SELL branch of the create-transaction route. -/
inductive SellError where
  | insufficientShares
  deriving DecidableEq, Repr

/-- The SELL branch of the create-transaction route (transactions.ts):
reject with an insufficient-shares error when the requested quantity
exceeds the position quantity, *before* any lot is touched; otherwise run
`processFIFOSale` and then delete the position when its quantity reaches
zero (result `none`) or store the decreased quantity. -/
def sellTransaction (pos : PositionState) (quantity : ℚ) :
    Except SellError (Option PositionState) :=
  if quantity > pos.quantity then
    .error .insufficientShares
  else
    let newLots := processFIFOSale pos.lots quantity
    let newQty := pos.quantity - quantity
    if newQty = 0 then .ok none
    else .ok (some { pos with quantity := newQty, lots := newLots })

/-- Database state observed after calling the SELL route: a rejected call
performs no write, so the original state is kept. -/
def sellEffect (pos : PositionState) (quantity : ℚ) : Option PositionState :=
  match sellTransaction pos quantity with
  | .error _ => some pos
  | .ok r => r

/-- The BUY / DIVIDEND_REINVEST branch of the create-transaction route
(transactions.ts): create a new tax lot and update the position quantity
and weighted-average cost basis. -/
def buyTransaction (pos : PositionState) (quantity price : ℚ)
    (executionDate : ℤ) : PositionState :=
  let newLots := pos.lots ++ [⟨quantity, price, executionDate, 0, false⟩]
  let newTotalQty := pos.quantity + quantity
  let newTotalCost := pos.quantity * pos.avgCostBasis + quantity * price
  { quantity := newTotalQty, avgCostBasis := newTotalCost / newTotalQty,
    lots := newLots }

/-- The add-lot route of positions.ts: create a lot row, then set
`quantity := old + added` and
`avgCostBasis := (old*oldAvg + added*cost) / (old + added)`. -/
def addLotToPosition (pos : PositionState) (quantity costBasis : ℚ)
    (purchaseDate : ℤ) : PositionState :=
  let newLots := pos.lots ++ [⟨quantity, costBasis, purchaseDate, 0, false⟩]
  let newTotalQty := pos.quantity + quantity
  let newTotalCost := pos.quantity * pos.avgCostBasis + quantity * costBasis
  { quantity := newTotalQty, avgCostBasis := newTotalCost / newTotalQty,
    lots := newLots }

/-- The create-position route of positions.ts: a fresh position whose
ledger holds exactly one initial lot mirroring the position itself. -/
def createPosition (quantity avgCostBasis : ℚ) (purchaseDate : ℤ) :
    PositionState :=
  { quantity := quantity, avgCostBasis := avgCostBasis,
    lots := [⟨quantity, avgCostBasis, purchaseDate, 0, false⟩] }

/-! ## FIFO tax-lot analysis (positions.ts, `calculateFIFOTaxLots`) -/

/-- Per-lot output row of `calculateFIFOTaxLots`. `unrealizedGainPercent`
is `Option ℚ` because the source divides by the lot cost basis without a
guard; `none` marks the non-finite JavaScript number produced when the
cost basis is zero. -/
structure LotAnalysis where
  purchaseDate : ℤ
  quantity : ℚ
  costBasis : ℚ
  totalCost : ℚ
  holdingDays : ℤ
  isLongTerm : Bool
  unrealizedGain : ℚ
  unrealizedGainPercent : Option ℚ
  isWashSale : Bool
  deriving DecidableEq, Repr

/-- Aggregated summary of `calculateFIFOTaxLots`. -/
structure TaxLotSummary where
  shortTermQuantity : ℚ
  longTermQuantity : ℚ
  shortTermGain : ℚ
  longTermGain : ℚ
  totalUnrealizedGain : ℚ
  deriving DecidableEq, Repr

/-- Full result of `calculateFIFOTaxLots`. -/
structure TaxLotReport where
  lots : List LotAnalysis
  summary : TaxLotSummary
  deriving DecidableEq, Repr

/-- Analysis of a single open lot, as computed inside the `map` of
`calculateFIFOTaxLots`.  `currentPrice` is already `Number(...)`-converted
by the caller, so a null price arrives as 0 and is falsy. -/
def analyzeLot (now : ℤ) (currentPrice : ℚ) (lot : TaxLot) : LotAnalysis :=
  let remainingQty := lot.quantity - lot.soldQuantity
  let holdingDays := Int.fdiv (now - lot.purchaseDate) 86400000
  let isLongTerm := holdingDays > 365
  let unrealizedGain := if currentPrice = 0 then 0
    else (currentPrice - lot.costBasis) * remainingQty
  { purchaseDate := lot.purchaseDate, quantity := remainingQty,
    costBasis := lot.costBasis, totalCost := lot.costBasis * remainingQty,
    holdingDays := holdingDays, isLongTerm := isLongTerm,
    unrealizedGain := unrealizedGain,
    unrealizedGainPercent := if currentPrice = 0 then some 0
      else (jsDiv (currentPrice - lot.costBasis) lot.costBasis).map (· * 100),
    isWashSale := lot.isWashSale }

/-- `calculateFIFOTaxLots` from positions.ts: keep the lots with remaining
quantity, analyze each, and aggregate short- and long-term buckets. -/
def calculateFIFOTaxLots (lots : List TaxLot) (currentPrice : ℚ) (now : ℤ) :
    TaxLotReport :=
  let openLots := lots.filter (fun lot => lot.soldQuantity < lot.quantity)
  let rows := openLots.map (analyzeLot now currentPrice)
  let longRows := rows.filter (fun r => r.isLongTerm)
  let shortRows := rows.filter (fun r => !r.isLongTerm)
  let shortTermGain := (shortRows.map (fun r => r.unrealizedGain)).sum
  let longTermGain := (longRows.map (fun r => r.unrealizedGain)).sum
  { lots := rows,
    summary := { shortTermQuantity := (shortRows.map (fun r => r.quantity)).sum,
                 longTermQuantity := (longRows.map (fun r => r.quantity)).sum,
                 shortTermGain := shortTermGain,
                 longTermGain := longTermGain,
                 totalUnrealizedGain := shortTermGain + longTermGain } }

/-! ## Return and risk statistics (calculation-service.ts) -/

/-- A portfolio valuation snapshot.  The source interface also carries a
date, cumulative return and benchmark value, none of which are read by the
embedded statistics, so only the total value is kept. -/
structure Snapshot where
  totalValue : ℚ
  deriving DecidableEq, Repr

/-- Loop body of `calculateReturnsFromSnapshots`: for `i` from 1, with
`prev = snapshots[i]` and `curr = snapshots[i-1]`, push
`(curr - prev) / prev` when `prev > 0`. -/
def periodReturns : List Snapshot → List ℚ
  | curr :: prev :: rest =>
    (if prev.totalValue > 0 then
      [(curr.totalValue - prev.totalValue) / prev.totalValue] else [])
      ++ periodReturns (prev :: rest)
  | _ => []

/-- `calculateReturnsFromSnapshots`: empty for fewer than two snapshots. -/
def calculateReturnsFromSnapshots (snapshots : List Snapshot) : List ℚ :=
  if snapshots.length < 2 then [] else periodReturns snapshots

/-- `calculateExpectedReturn`: 0.08 default for an empty return list, else
the mean return annualized by 252. -/
def calculateExpectedReturn (returns : List ℚ) : ℚ :=
  if returns.length = 0 then 8 / 100
  else returns.sum / (returns.length : ℚ) * 252

/-- The Bessel-corrected sample variance computed inside
`calculateStandardDeviation` (before the square roots are applied). -/
def sampleVariance (returns : List ℚ) : ℚ :=
  let mean := returns.sum / (returns.length : ℚ)
  ((returns.map fun r => (r - mean) ^ 2).sum) / ((returns.length : ℚ) - 1)

/-- `calculateStandardDeviation`: 0.15 default for fewer than two return
observations, else `Math.sqrt(variance) * Math.sqrt(252)`. -/
noncomputable def calculateStandardDeviation (returns : List ℚ) : ℝ :=
  if returns.length < 2 then 15 / 100
  else Real.sqrt (sampleVariance returns) * Real.sqrt 252

/-- `calculateSharpeRatio` from calculation-service.ts (named without the
suffix here): `(expectedReturn - RISK_FREE_RATE) / stdDev`, 0 when the
standard deviation is zero. -/
noncomputable def calculateSharpe (returns : List ℚ) : ℝ :=
  let expectedReturn := calculateExpectedReturn returns
  let stdDev := calculateStandardDeviation returns
  if stdDev = 0 then 0 else ((expectedReturn : ℝ) - (RISK_FREE_RATE : ℝ)) / stdDev

/-- The Sortino computation inside `performRiskAnalysis`: filter the
negative returns, take their standard deviation, and divide the excess
expected return by it when it is positive, else 0. -/
noncomputable def riskSortino (returns : List ℚ) : ℝ :=
  let downsideReturns := returns.filter (fun r => r < 0)
  let downsideStdDev := calculateStandardDeviation downsideReturns
  if downsideStdDev > 0 then
    ((calculateExpectedReturn returns : ℝ) - (RISK_FREE_RATE : ℝ)) / downsideStdDev
  else 0

/-- One step of the `calculateMaxDrawdown` loop: raise the running peak,
then record the drawdown `(peak - value) / peak` when it exceeds the
maximum seen.  The state is `(maxDrawdown, peak)`.  When the peak is zero
the JavaScript division yields NaN, which fails the `>` test exactly as
the rational `0` produced here does. -/
def drawdownStep (st : ℚ × ℚ) (value : ℚ) : ℚ × ℚ :=
  let peak := if value > st.2 then value else st.2
  let drawdown := (peak - value) / peak
  (if drawdown > st.1 then drawdown else st.1, peak)

/-- `calculateMaxDrawdown`: 0 for fewer than two snapshots, else the
maximal drawdown against the running peak, iterating the snapshots in the
order supplied and starting the peak at the first value. -/
def calculateMaxDrawdown (snapshots : List Snapshot) : ℚ :=
  match snapshots with
  | [] => 0
  | [_] => 0
  | s :: rest =>
    (((s :: rest).map Snapshot.totalValue).foldl drawdownStep (0, s.totalValue)).1

/-- `calculateBeta`: 1.0 for fewer than ten returns; otherwise build a
synthetic market series `r * 0.9 + jitter` (each jitter entry models one
`Math.random() * 0.02 - 0.01` draw) and return covariance over market
variance, with 1.0 when the market variance is zero. -/
def calculateBeta (returns : List ℚ) (jitter : List ℚ) : ℚ :=
  if returns.length < 10 then 1
  else
    let marketReturns := List.zipWith (fun r j => r * (9 / 10) + j) returns jitter
    let portfolioMean := returns.sum / (returns.length : ℚ)
    let marketMean := marketReturns.sum / (marketReturns.length : ℚ)
    let pairs := returns.zip marketReturns
    let covariance := (pairs.map fun p => (p.1 - portfolioMean) * (p.2 - marketMean)).sum
    let marketVariance := (marketReturns.map fun m => (m - marketMean) ^ 2).sum
    if marketVariance = 0 then 1 else covariance / marketVariance

/-! ## What-if simulation (analysis.ts) -/

/-- A database position row as supplied to the simulation route and to
`calculatePortfolioMetrics`.  `currentPrice` and `marketValue` are
nullable Decimal columns. -/
structure Position where
  ticker : String
  quantity : ℚ
  avgCostBasis : ℚ
  currentPrice : Option ℚ
  marketValue : Option ℚ
  sector : String
  assetType : String
  deriving DecidableEq, Repr

/-- The summand of the `totalValue` reduce in `calculatePortfolioMetrics`
(and `calculateKPIs`):
`Number(p.marketValue) || Number(p.quantity) * Number(p.currentPrice || p.avgCostBasis)`. -/
def positionMarketValue (p : Position) : ℚ :=
  numOr p.marketValue (p.quantity * decOr p.currentPrice p.avgCostBasis)

/-- Action of one simulation change. -/
inductive ChangeAction where
  | add
  | remove
  | adjust
  deriving DecidableEq, Repr

/-- One entry of the simulation request's `changes` array. -/
structure Change where
  ticker : String
  action : ChangeAction
  quantity : ℚ
  price : Option ℚ
  deriving DecidableEq, Repr

/-- A working-set entry of `applySimulatedChanges`: a position spread
together with the two transient flags. -/
structure SimPosition where
  ticker : String
  quantity : ℚ
  avgCostBasis : ℚ
  currentPrice : Option ℚ
  marketValue : Option ℚ
  sector : String
  assetType : String
  isNew : Bool
  isRemoved : Bool
  deriving DecidableEq, Repr

/-- `{ ...p, isNew: false, isRemoved: false }` applied to each base
position when the working map is built. -/
def toSimPosition (p : Position) : SimPosition :=
  { ticker := p.ticker, quantity := p.quantity, avgCostBasis := p.avgCostBasis,
    currentPrice := p.currentPrice, marketValue := p.marketValue,
    sector := p.sector, assetType := p.assetType,
    isNew := false, isRemoved := false }

/-- `change.ticker.toUpperCase()`: upper-case each character.  This is
`String.toUpper` of the standard library restated over the character list
so that concrete instances evaluate by `decide`. -/
def jsToUpper (s : String) : String :=
  String.mk (s.data.map Char.toUpper)

/-- `positionMap.has(ticker)` over the insertion-ordered working set. -/
def findTicker (t : String) (m : List SimPosition) : Bool :=
  m.any (fun p => p.ticker = t)

/-- Mutate the (unique) entry with the given ticker, in place. -/
def updateTicker (t : String) (f : SimPosition → SimPosition) :
    List SimPosition → List SimPosition
  | [] => []
  | p :: ps => if p.ticker = t then f p :: ps else p :: updateTicker t f ps

/-- The `add`-on-existing branch of `applySimulatedChanges`.  The source
mutates `existing.quantity` *before* reading it to form `oldValue`, so
with a truthy price the new average cost is
`((oldQty + q) * oldAvg + q * price) / ((oldQty + q) + q)`. -/
def applyAddExisting (c : Change) (p : SimPosition) : SimPosition :=
  let afterQty := { p with quantity := p.quantity + c.quantity }
  match c.price with
  | some price =>
    if price = 0 then afterQty
    else
      let oldValue := afterQty.quantity * afterQty.avgCostBasis
      let newValue := c.quantity * price
      { afterQty with
        avgCostBasis := (oldValue + newValue) / (afterQty.quantity + c.quantity) }
  | none => afterQty

/-- The `add`-on-absent branch: a fresh simulated position with sector
"Unknown" and asset type STOCK, priced at `change.price || 0`. -/
def newSimPosition (t : String) (c : Change) : SimPosition :=
  let price := c.price.getD 0
  { ticker := t, quantity := c.quantity, avgCostBasis := price,
    currentPrice := some price, marketValue := some (c.quantity * price),
    sector := "Unknown", assetType := "STOCK",
    isNew := true, isRemoved := false }

/-- One iteration of the `for (const change of changes)` loop of
`applySimulatedChanges`. -/
def applyChange (m : List SimPosition) (c : Change) : List SimPosition :=
  let t := jsToUpper c.ticker
  match c.action with
  | .add =>
    if findTicker t m then updateTicker t (applyAddExisting c) m
    else m ++ [newSimPosition t c]
  | .remove =>
    if findTicker t m then
      updateTicker t (fun p => { p with isRemoved := true, quantity := 0 }) m
    else m
  | .adjust =>
    if findTicker t m then
      updateTicker t (fun p => { p with quantity := c.quantity }) m
    else m

/-- Output row of `applySimulatedChanges` after the weight pass. -/
structure SimOutPosition where
  ticker : String
  quantity : ℚ
  avgCostBasis : ℚ
  currentPrice : Option ℚ
  marketValue : ℚ
  weight : ℚ
  sector : String
  assetType : String
  isNew : Bool
  isRemoved : Bool
  deriving DecidableEq, Repr

/-- `Number(p.quantity) * Number(p.currentPrice || p.avgCostBasis)` for a
working-set entry. -/
def simValue (p : SimPosition) : ℚ :=
  p.quantity * decOr p.currentPrice p.avgCostBasis

/-- `applySimulatedChanges` from analysis.ts: build the working set from
the base positions, fold the changes over it, drop the entries flagged
`isRemoved`, and annotate the survivors with market value and weight
(zero weight when the total is not positive). -/
def applySimulatedChanges (currentPositions : List Position)
    (changes : List Change) : List SimOutPosition :=
  let initial := currentPositions.map toSimPosition
  let final := changes.foldl applyChange initial
  let positions := final.filter (fun p => !p.isRemoved)
  let totalValue := (positions.map simValue).sum
  positions.map fun p =>
    { ticker := p.ticker, quantity := p.quantity, avgCostBasis := p.avgCostBasis,
      currentPrice := p.currentPrice, marketValue := simValue p,
      weight := if totalValue > 0 then simValue p / totalValue * 100 else 0,
      sector := p.sector, assetType := p.assetType,
      isNew := p.isNew, isRemoved := p.isRemoved }

/-- The metric set produced by `calculatePortfolioMetrics` and
`calculateSimulatedMetrics`. -/
structure Metrics where
  totalValue : ℚ
  expectedReturn : ℚ
  standardDeviation : ℝ
  sharpe : ℝ
  maxDrawdown : ℚ
  beta : ℚ

/-- `calculatePortfolioMetrics` from calculation-service.ts. -/
noncomputable def calculatePortfolioMetrics (positions : List Position)
    (snapshots : List Snapshot) (jitter : List ℚ) : Metrics :=
  let returns := calculateReturnsFromSnapshots snapshots
  { totalValue := (positions.map positionMarketValue).sum,
    expectedReturn := calculateExpectedReturn returns,
    standardDeviation := calculateStandardDeviation returns,
    sharpe := calculateSharpe returns,
    maxDrawdown := calculateMaxDrawdown snapshots,
    beta := calculateBeta returns jitter }

/-- `calculateSimulatedMetrics` from calculation-service.ts: baseline
statistics adjusted by the diversification heuristic (stdDev × 0.95 and
expected return × 1.02 when any new position exists), max drawdown scaled
by 0.9 and beta estimated as the constant 1.1. -/
noncomputable def calculateSimulatedMetrics (simulatedPositions : List SimOutPosition)
    (snapshots : List Snapshot) : Metrics :=
  let totalValue := (simulatedPositions.map (fun p => p.marketValue)).sum
  let returns := calculateReturnsFromSnapshots snapshots
  let hasNewPositions := simulatedPositions.any (fun p => p.isNew)
  let expectedReturn0 := calculateExpectedReturn returns
  let stdDev0 := calculateStandardDeviation returns
  let expectedReturn := if hasNewPositions then expectedReturn0 * (102 / 100)
    else expectedReturn0
  let stdDev : ℝ := if hasNewPositions then stdDev0 * (95 / 100) else stdDev0
  { totalValue := totalValue,
    expectedReturn := expectedReturn,
    standardDeviation := stdDev,
    sharpe := if stdDev > 0 then
        ((expectedReturn : ℝ) - (RISK_FREE_RATE : ℝ)) / stdDev else 0,
    maxDrawdown := calculateMaxDrawdown snapshots * (9 / 10),
    beta := 11 / 10 }

/-- One `{ current, simulated, change }` record of the route's delta. -/
structure DeltaEntry (α : Type) where
  current : α
  simulated : α
  change : α

/-- The six-field delta structure built by the simulate route. -/
structure SimulationDelta where
  expectedReturn : DeltaEntry ℚ
  risk : DeltaEntry ℝ
  sharpe : DeltaEntry ℝ
  maxDrawdown : DeltaEntry ℚ
  beta : DeltaEntry ℚ
  totalValue : DeltaEntry ℚ

/-- One element of the route's `simulatedPositions` response array. -/
structure SimOutput where
  ticker : String
  quantity : ℚ
  weight : ℚ
  isNew : Bool
  isRemoved : Bool
  deriving DecidableEq, Repr

/-- Response of the simulate route (the efficient-frontier field, a
randomly generated visualization curve unused by any claim, is omitted). -/
structure SimulationResult where
  current : Metrics
  simulated : Metrics
  delta : SimulationDelta
  simulatedPositions : List SimOutput

/-- The `/simulate` route body from analysis.ts: current metrics,
simulated positions, simulated metrics, the delta record, and the mapped
position output. -/
noncomputable def simulateRoute (positions : List Position)
    (snapshots : List Snapshot) (jitter : List ℚ) (changes : List Change) :
    SimulationResult :=
  let currentMetrics := calculatePortfolioMetrics positions snapshots jitter
  let simPositions := applySimulatedChanges positions changes
  let simulatedMetrics := calculateSimulatedMetrics simPositions snapshots
  { current := currentMetrics,
    simulated := simulatedMetrics,
    delta :=
      { expectedReturn := ⟨currentMetrics.expectedReturn, simulatedMetrics.expectedReturn,
          simulatedMetrics.expectedReturn - currentMetrics.expectedReturn⟩,
        risk := ⟨currentMetrics.standardDeviation, simulatedMetrics.standardDeviation,
          simulatedMetrics.standardDeviation - currentMetrics.standardDeviation⟩,
        sharpe := ⟨currentMetrics.sharpe, simulatedMetrics.sharpe,
          simulatedMetrics.sharpe - currentMetrics.sharpe⟩,
        maxDrawdown := ⟨currentMetrics.maxDrawdown, simulatedMetrics.maxDrawdown,
          simulatedMetrics.maxDrawdown - currentMetrics.maxDrawdown⟩,
        beta := ⟨currentMetrics.beta, simulatedMetrics.beta,
          simulatedMetrics.beta - currentMetrics.beta⟩,
        totalValue := ⟨currentMetrics.totalValue, simulatedMetrics.totalValue,
          simulatedMetrics.totalValue - currentMetrics.totalValue⟩ },
    simulatedPositions := simPositions.map fun p =>
      ⟨p.ticker, p.quantity, p.weight, p.isNew, p.isRemoved⟩ }

/-! ## Helper lemmas: FIFO sale processing -/

/-- A sale of a non-positive quantity leaves every lot untouched. -/
lemma processFIFOSale_nonpos (lots : List TaxLot) (q : ℚ) (hq : q ≤ 0) :
    processFIFOSale lots q = lots := by
  cases lots with
  | nil => rfl
  | cons lot rest => rw [processFIFOSale, if_pos hq]

/-- FIFO sale processing touches only the sold quantities: the quantity,
cost basis, purchase date and wash-sale flag of every lot are kept, in
order, so no lot is reordered or deleted. -/
lemma processFIFOSale_shape (lots : List TaxLot) (q : ℚ) :
    (processFIFOSale lots q).map
        (fun l => (l.quantity, l.costBasis, l.purchaseDate, l.isWashSale)) =
      lots.map (fun l => (l.quantity, l.costBasis, l.purchaseDate, l.isWashSale)) := by
  induction lots generalizing q with
  | nil => rfl
  | cons lot rest ih =>
    rw [processFIFOSale]
    by_cases h0 : q ≤ 0
    · rw [if_pos h0]
    · rw [if_neg h0]
      by_cases h1 : lot.quantity - lot.soldQuantity ≤ 0
      · simp only [if_pos h1, List.map_cons, ih]
      · simp only [if_neg h1, List.map_cons, ih]

/-- The consumable total is non-negative. -/
lemma lotsAvailable_nonneg (lots : List TaxLot) : 0 ≤ lotsAvailable lots := by
  induction lots with
  | nil => simp [lotsAvailable]
  | cons lot rest ih =>
    simp only [lotsAvailable, List.map_cons, List.sum_cons] at ih ⊢
    have := le_max_right (lot.quantity - lot.soldQuantity) 0
    linarith

/-- The signed remaining total is at most the consumable total. -/
lemma lotsRemaining_le_available (lots : List TaxLot) :
    lotsRemaining lots ≤ lotsAvailable lots := by
  induction lots with
  | nil => simp [lotsRemaining, lotsAvailable]
  | cons lot rest ih =>
    simp only [lotsRemaining, lotsAvailable, List.map_cons, List.sum_cons] at ih ⊢
    have := le_max_left (lot.quantity - lot.soldQuantity) 0
    linarith

/-- Conservation: a FIFO sale of `q` units, when `q` does not exceed the
consumable total, decreases the total remaining quantity by exactly `q`. -/
lemma processFIFOSale_remaining (lots : List TaxLot) (q : ℚ) (h0 : 0 ≤ q)
    (hle : q ≤ lotsAvailable lots) :
    lotsRemaining (processFIFOSale lots q) = lotsRemaining lots - q := by
  induction lots generalizing q with
  | nil =>
    simp only [lotsAvailable, List.map_nil, List.sum_nil] at hle
    have hq : q = 0 := le_antisymm hle h0
    simp [processFIFOSale, lotsRemaining, hq]
  | cons lot rest ih =>
    rw [processFIFOSale]
    by_cases hq0 : q ≤ 0
    · have hq : q = 0 := le_antisymm hq0 h0
      simp [hq]
    · rw [if_neg hq0]
      have hqpos : 0 < q := lt_of_not_ge hq0
      by_cases havail : lot.quantity - lot.soldQuantity ≤ 0
      · rw [if_pos havail]
        have hmax : max (lot.quantity - lot.soldQuantity) 0 = 0 := max_eq_right havail
        have hle2 : q ≤ lotsAvailable rest := by
          simp only [lotsAvailable, List.map_cons, List.sum_cons, hmax, zero_add] at hle
          simpa [lotsAvailable] using hle
        have := ih q h0 hle2
        simp only [lotsRemaining, List.map_cons, List.sum_cons] at this ⊢
        linarith
      · rw [if_neg havail]
        have havailpos : 0 < lot.quantity - lot.soldQuantity := lt_of_not_ge havail
        set avail := lot.quantity - lot.soldQuantity with hav
        set sell := min avail q with hsell
        have hsell0 : 0 ≤ sell := le_min (le_of_lt havailpos) h0
        have hsellq : sell ≤ q := min_le_right avail q
        have h0r : 0 ≤ q - sell := by linarith
        have hmax : max avail 0 = avail := max_eq_left (le_of_lt havailpos)
        have hle2 : q - sell ≤ lotsAvailable rest := by
          simp only [lotsAvailable, List.map_cons, List.sum_cons, ← hav, hmax] at hle
          have hsella : sell ≤ avail := min_le_left avail q
          by_cases hc : avail ≤ q
          · have : sell = avail := min_eq_left hc
            simp only [lotsAvailable]
            linarith
          · have hqa : q ≤ avail := le_of_not_ge hc
            have : sell = q := min_eq_right hqa
            have := lotsAvailable_nonneg rest
            simp only [lotsAvailable] at this ⊢
            linarith
        have := ih (q - sell) h0r hle2
        simp only [lotsRemaining, List.map_cons, List.sum_cons] at this ⊢
        linarith

/-- Oldest-first consumption: if a FIFO sale increments the sold quantity
of the lot at index `j`, every earlier lot is left with no remaining
quantity. -/
lemma processFIFOSale_oldest_first (d : TaxLot) (lots : List TaxLot) (q : ℚ)
    (i j : ℕ) (hij : i < j) (hj : j < lots.length)
    (htouched : (lots.getD j d).soldQuantity <
      ((processFIFOSale lots q).getD j d).soldQuantity) :
    ((processFIFOSale lots q).getD i d).quantity ≤
      ((processFIFOSale lots q).getD i d).soldQuantity := by
  induction lots generalizing q i j with
  | nil => simp at hj
  | cons lot rest ih =>
    rw [processFIFOSale] at htouched ⊢
    by_cases hq0 : q ≤ 0
    · rw [if_pos hq0] at htouched
      exact absurd htouched (lt_irrefl _)
    · rw [if_neg hq0] at htouched ⊢
      by_cases havail : lot.quantity - lot.soldQuantity ≤ 0
      · rw [if_pos havail] at htouched ⊢
        cases j with
        | zero => omega
        | succ j2 =>
          cases i with
          | zero =>
            simp only [List.getD_cons_zero]
            linarith
          | succ i2 =>
            simp only [List.getD_cons_succ] at htouched ⊢
            exact ih q i2 j2 (by omega) (by simpa using hj) htouched
      · rw [if_neg havail] at htouched ⊢
        have havailpos : 0 < lot.quantity - lot.soldQuantity := lt_of_not_ge havail
        cases j with
        | zero => omega
        | succ j2 =>
          simp only [List.getD_cons_succ] at htouched
          cases i with
          | zero =>
            simp only [List.getD_cons_zero]
            by_cases hrest : q - min (lot.quantity - lot.soldQuantity) q ≤ 0
            · rw [processFIFOSale_nonpos rest _ hrest] at htouched
              exact absurd htouched (lt_irrefl _)
            · have hqlt : ¬ q ≤ lot.quantity - lot.soldQuantity := by
                intro hc
                rw [min_eq_right hc] at hrest
                simp at hrest
              have : min (lot.quantity - lot.soldQuantity) q =
                  lot.quantity - lot.soldQuantity :=
                min_eq_left (le_of_not_ge hqlt)
              rw [this]
              linarith
          | succ i2 =>
            simp only [List.getD_cons_succ]
            exact ih _ i2 j2 (by omega) (by simpa using hj) htouched

/-! ## Claim theorems: tax-lot ledger -/

/-- C7: FIFO sale processing consumes lots oldest-first.  (1) No lot is
reordered or deleted and only sold quantities change; (2) when the sale
quantity does not exceed the total remaining, exactly that quantity is
consumed (each lot giving up `min(remaining, still-to-sell)` by the loop);
(3) a later lot is consumed only once every earlier lot has no remaining
quantity; (4) selling 12 from lots [(2020, 10sh), (2021, 5sh)] leaves lot1
with sold-quantity 10 (remaining 0) and lot2 with sold-quantity 2
(remaining 3). -/
theorem C7_fifo_oldest_first :
    (∀ (lots : List TaxLot) (q : ℚ),
      (processFIFOSale lots q).map
          (fun l => (l.quantity, l.costBasis, l.purchaseDate, l.isWashSale)) =
        lots.map (fun l => (l.quantity, l.costBasis, l.purchaseDate, l.isWashSale))) ∧
    (∀ (lots : List TaxLot) (q : ℚ), 0 ≤ q → q ≤ lotsRemaining lots →
      lotsRemaining (processFIFOSale lots q) = lotsRemaining lots - q) ∧
    (∀ (d : TaxLot) (lots : List TaxLot) (q : ℚ) (i j : ℕ),
      i < j → j < lots.length →
      (lots.getD j d).soldQuantity < ((processFIFOSale lots q).getD j d).soldQuantity →
      ((processFIFOSale lots q).getD i d).quantity ≤
        ((processFIFOSale lots q).getD i d).soldQuantity) ∧
    processFIFOSale
        [⟨10, 50, 1577836800000, 0, false⟩, ⟨5, 60, 1609459200000, 0, false⟩] 12 =
      [⟨10, 50, 1577836800000, 10, false⟩, ⟨5, 60, 1609459200000, 2, false⟩] := by
  refine ⟨processFIFOSale_shape, ?_, processFIFOSale_oldest_first, ?_⟩
  · intro lots q h0 hle
    exact processFIFOSale_remaining lots q h0
      (le_trans hle (lotsRemaining_le_available lots))
  · norm_num [processFIFOSale, min_def]

/-- Witness for C7: the quantified parts applied to the two-lot ledger of
the concrete example. -/
theorem C7_fifo_oldest_first_w :
    ((processFIFOSale
        [⟨(10 : ℚ), 50, 2020, 0, false⟩, ⟨5, 60, 2021, 0, false⟩] 12).map
          (fun l => (l.quantity, l.costBasis, l.purchaseDate, l.isWashSale)) =
      [((10 : ℚ), (50 : ℚ), (2020 : ℤ), false), (5, 60, 2021, false)]) ∧
    lotsRemaining (processFIFOSale
        [⟨(10 : ℚ), 50, 2020, 0, false⟩, ⟨5, 60, 2021, 0, false⟩] 12) = 15 - 12 ∧
    ((processFIFOSale
        [⟨(10 : ℚ), 50, 2020, 0, false⟩, ⟨5, 60, 2021, 0, false⟩] 12).getD 0
          ⟨0, 0, 0, 0, false⟩).quantity ≤
      ((processFIFOSale
        [⟨(10 : ℚ), 50, 2020, 0, false⟩, ⟨5, 60, 2021, 0, false⟩] 12).getD 0
          ⟨0, 0, 0, 0, false⟩).soldQuantity := by
  refine ⟨?_, ?_, ?_⟩
  · have := C7_fifo_oldest_first.1
      [⟨(10 : ℚ), 50, 2020, 0, false⟩, ⟨5, 60, 2021, 0, false⟩] 12
    rw [this]
    norm_num
  · have h := C7_fifo_oldest_first.2.1
      [⟨(10 : ℚ), 50, 2020, 0, false⟩, ⟨5, 60, 2021, 0, false⟩] 12
      (by norm_num) (by norm_num [lotsRemaining])
    rw [h]
    norm_num [lotsRemaining]
  · refine C7_fifo_oldest_first.2.2.1 ⟨0, 0, 0, 0, false⟩
      [⟨(10 : ℚ), 50, 2020, 0, false⟩, ⟨5, 60, 2021, 0, false⟩] 12 0 1
      (by norm_num) (by norm_num) ?_
    norm_num [processFIFOSale, min_def]

/-- C8: a SELL whose quantity exceeds the position quantity is rejected
with the insufficient-shares error and leaves the stored state (position
row and every lot's sold quantity) unchanged; a SELL within the position
quantity is never rejected. -/
theorem C8_sell_insufficient_rejected (pos : PositionState) (q : ℚ) :
    (pos.quantity < q →
      sellTransaction pos q = .error .insufficientShares ∧
      sellEffect pos q = some pos) ∧
    (q ≤ pos.quantity → ∃ r, sellTransaction pos q = .ok r) := by
  constructor
  · intro hlt
    have hsell : sellTransaction pos q = .error .insufficientShares := by
      rw [sellTransaction, if_pos hlt]
    exact ⟨hsell, by rw [sellEffect, hsell]⟩
  · intro hle
    rw [sellTransaction, if_neg (not_lt_of_ge hle)]
    by_cases hz : pos.quantity - q = 0
    · exact ⟨none, by rw [if_pos hz]⟩
    · exact ⟨_, by rw [if_neg hz]⟩

/-- Witness for C8: selling 12 from a 10-share position is rejected with
no state change, and selling 4 is accepted. -/
theorem C8_sell_insufficient_rejected_w :
    (sellTransaction ⟨10, 80, [⟨10, 80, 0, 0, false⟩]⟩ 12 =
        .error .insufficientShares ∧
      sellEffect ⟨10, 80, [⟨10, 80, 0, 0, false⟩]⟩ 12 =
        some ⟨10, 80, [⟨10, 80, 0, 0, false⟩]⟩) ∧
    (∃ r, sellTransaction ⟨10, 80, [⟨10, 80, 0, 0, false⟩]⟩ 4 = .ok r) :=
  ⟨(C8_sell_insufficient_rejected ⟨10, 80, [⟨10, 80, 0, 0, false⟩]⟩ 12).1
      (by norm_num),
    (C8_sell_insufficient_rejected ⟨10, 80, [⟨10, 80, 0, 0, false⟩]⟩ 4).2
      (by norm_num)⟩

/-- C9: the ledger reconciliation invariant
`sum of (lot quantity - sold quantity) = position quantity` holds for a
freshly created position and is preserved by the add-lot route, the BUY
transaction branch, and a valid SELL; a SELL of the full quantity deletes
the position. -/
theorem C9_ledger_reconciliation :
    (∀ (q avg : ℚ) (d : ℤ),
      lotsRemaining (createPosition q avg d).lots = (createPosition q avg d).quantity) ∧
    (∀ (pos : PositionState) (q cb : ℚ) (d : ℤ),
      lotsRemaining pos.lots = pos.quantity →
      lotsRemaining (addLotToPosition pos q cb d).lots =
        (addLotToPosition pos q cb d).quantity) ∧
    (∀ (pos : PositionState) (q price : ℚ) (d : ℤ),
      lotsRemaining pos.lots = pos.quantity →
      lotsRemaining (buyTransaction pos q price d).lots =
        (buyTransaction pos q price d).quantity) ∧
    (∀ (pos : PositionState) (q : ℚ),
      lotsRemaining pos.lots = pos.quantity → 0 ≤ q → q ≤ pos.quantity →
      ∃ r, sellTransaction pos q = .ok r ∧
        (r = none → q = pos.quantity) ∧
        (∀ pos2, r = some pos2 → lotsRemaining pos2.lots = pos2.quantity)) := by
  refine ⟨?_, ?_, ?_, ?_⟩
  · intro q avg d
    simp [createPosition, lotsRemaining]
  · intro pos q cb d hinv
    simp only [addLotToPosition, lotsRemaining, List.map_append, List.sum_append,
      List.map_cons, List.map_nil, List.sum_cons, List.sum_nil] at hinv ⊢
    linarith
  · intro pos q price d hinv
    simp only [buyTransaction, lotsRemaining, List.map_append, List.sum_append,
      List.map_cons, List.map_nil, List.sum_cons, List.sum_nil] at hinv ⊢
    linarith
  · intro pos q hinv h0 hle
    have hrem : lotsRemaining (processFIFOSale pos.lots q) = lotsRemaining pos.lots - q :=
      processFIFOSale_remaining pos.lots q h0
        (le_trans (hinv ▸ hle) (lotsRemaining_le_available pos.lots))
    rw [sellTransaction, if_neg (not_lt_of_ge hle)]
    by_cases hz : pos.quantity - q = 0
    · refine ⟨none, by rw [if_pos hz], fun _ => by linarith, ?_⟩
      intro pos2 hcon
      exact absurd hcon (by simp)
    · refine ⟨some ⟨pos.quantity - q, pos.avgCostBasis, processFIFOSale pos.lots q⟩,
        by rw [if_neg hz], by simp, ?_⟩
      intro pos2 hsome
      have hpos2 : pos2 = ⟨pos.quantity - q, pos.avgCostBasis, processFIFOSale pos.lots q⟩ := by
        injection hsome with h
        exact h.symm
      rw [hpos2]
      simp only [hrem, hinv]

/-- Witness for C9: each conjunct applied to a concrete position holding
ten shares at cost 80 with a matching single-lot ledger. -/
theorem C9_ledger_reconciliation_w :
    lotsRemaining (createPosition (10 : ℚ) 80 0).lots =
      (createPosition (10 : ℚ) 80 0).quantity ∧
    lotsRemaining
        (addLotToPosition ⟨10, 80, [⟨10, 80, 0, 0, false⟩]⟩ 10 100 1).lots =
      (addLotToPosition ⟨10, 80, [⟨10, 80, 0, 0, false⟩]⟩ 10 100 1).quantity ∧
    lotsRemaining
        (buyTransaction ⟨10, 80, [⟨10, 80, 0, 0, false⟩]⟩ 5 90 1).lots =
      (buyTransaction ⟨10, 80, [⟨10, 80, 0, 0, false⟩]⟩ 5 90 1).quantity ∧
    (∃ r, sellTransaction ⟨10, 80, [⟨10, 80, 0, 0, false⟩]⟩ 4 = .ok r ∧
      (r = none → (4 : ℚ) = (10 : ℚ)) ∧
      (∀ pos2, r = some pos2 → lotsRemaining pos2.lots = pos2.quantity)) :=
  ⟨C9_ledger_reconciliation.1 10 80 0,
    C9_ledger_reconciliation.2.1 ⟨10, 80, [⟨10, 80, 0, 0, false⟩]⟩ 10 100 1
      (by norm_num [lotsRemaining]),
    C9_ledger_reconciliation.2.2.1 ⟨10, 80, [⟨10, 80, 0, 0, false⟩]⟩ 5 90 1
      (by norm_num [lotsRemaining]),
    C9_ledger_reconciliation.2.2.2 ⟨10, 80, [⟨10, 80, 0, 0, false⟩]⟩ 4
      (by norm_num [lotsRemaining]) (by norm_num) (by norm_num)⟩

/-! ## Helper lemmas: max drawdown -/

/-- Along a non-decreasing value sequence the drawdown fold keeps the
maximum at zero and the peak at the last value seen. -/
lemma drawdown_foldl_mono (l : List ℚ) :
    ∀ p : ℚ, List.Chain' (· ≤ ·) (p :: l) →
      ∃ p2, l.foldl drawdownStep (0, p) = (0, p2) := by
  induction l with
  | nil => exact fun p _ => ⟨p, rfl⟩
  | cons v t ih =>
    intro p hchain
    have hpv : p ≤ v := (List.chain'_cons.mp hchain).1
    have hstep : drawdownStep (0, p) v = (0, v) := by
      rw [drawdownStep]
      by_cases hgt : v > p
      · simp [hgt]
      · have hv : v = p := le_antisymm (le_of_not_gt hgt) hpv
        simp [hgt, hv]
    rw [List.foldl_cons, hstep]
    exact ih v (List.chain'_cons.mp hchain).2

/-! ## Claim theorems: statistics -/

/-- C6: the max drawdown over the snapshot series is 0 for fewer than two
snapshots, 0 for a non-decreasing value series, and equals
(120 - 80) / 120 = 1/3 on the value series [100, 120, 80, 110]. -/
theorem C6_max_drawdown :
    (∀ snapshots : List Snapshot, snapshots.length < 2 →
      calculateMaxDrawdown snapshots = 0) ∧
    (∀ snapshots : List Snapshot,
      List.Chain' (· ≤ ·) (snapshots.map Snapshot.totalValue) →
      calculateMaxDrawdown snapshots = 0) ∧
    calculateMaxDrawdown [⟨100⟩, ⟨120⟩, ⟨80⟩, ⟨110⟩] = (120 - 80) / 120 := by
  refine ⟨?_, ?_, ?_⟩
  · intro snapshots hlen
    match snapshots with
    | [] => rfl
    | [_] => rfl
    | a :: b :: t => (simp at hlen; omega)
  · intro snapshots hchain
    match snapshots with
    | [] => rfl
    | [_] => rfl
    | a :: b :: t =>
      rw [calculateMaxDrawdown]
      simp only [List.map_cons] at hchain ⊢
      rw [List.foldl_cons]
      have hstep : drawdownStep (0, a.totalValue) a.totalValue = (0, a.totalValue) := by
        rw [drawdownStep]
        simp [lt_irrefl]
      rw [hstep]
      obtain ⟨p2, hp2⟩ := drawdown_foldl_mono (b.totalValue :: t.map Snapshot.totalValue)
        a.totalValue hchain
      rw [hp2]
      exact List.cons_ne_nil b t
  · norm_num [calculateMaxDrawdown, drawdownStep]

/-- Witness for C6: the short-series part at a single snapshot and the
monotone part at the rising series [100, 110, 120]. -/
theorem C6_max_drawdown_w :
    calculateMaxDrawdown [⟨(100 : ℚ)⟩] = 0 ∧
    calculateMaxDrawdown [⟨(100 : ℚ)⟩, ⟨110⟩, ⟨120⟩] = 0 :=
  ⟨C6_max_drawdown.1 [⟨(100 : ℚ)⟩] (by norm_num),
    C6_max_drawdown.2.1 [⟨(100 : ℚ)⟩, ⟨110⟩, ⟨120⟩] (by norm_num)⟩

/-- C4 (amended): when the period-return sequence contains fewer than two
negative returns — in particular when it contains none — the downside
standard deviation takes the 0.15 insufficient-data default, so the
Sortino ratio equals (expectedReturn − 0.05) / 0.15 rather than 0; the
ratio is 0 exactly when the downside standard deviation is not positive,
which requires at least two negative returns. -/
theorem C4_sortino_characterization :
    (∀ returns : List ℚ, (returns.filter (fun r => r < 0)).length < 2 →
      riskSortino returns =
        ((calculateExpectedReturn returns : ℝ) - (RISK_FREE_RATE : ℝ)) / (15 / 100)) ∧
    (∀ returns : List ℚ,
      calculateStandardDeviation (returns.filter (fun r => r < 0)) ≤ 0 →
      riskSortino returns = 0) := by
  constructor
  · intro returns h
    have hsd : calculateStandardDeviation (returns.filter (fun r => r < 0)) =
        ((15 : ℝ) / 100) := by
      rw [calculateStandardDeviation, if_pos h]
    simp only [riskSortino, hsd]
    rw [if_pos (by norm_num : ((15 : ℝ) / 100) > 0)]
  · intro returns h
    simp only [riskSortino]
    rw [if_neg (not_lt_of_ge h)]

/-- Counterexample to C4 as stated: the return series produced by the
snapshot values [110, 100] is [0.10], which has no negative entry, yet
the Sortino ratio is (25.2 − 0.05) / 0.15 = 503/3, not 0. -/
theorem C4_sortino_cex :
    calculateReturnsFromSnapshots [⟨110⟩, ⟨100⟩] = [1 / 10] ∧
    List.filter (fun r => r < 0) [(1 : ℚ) / 10] = [] ∧
    riskSortino [(1 : ℚ) / 10] ≠ 0 := by
  refine ⟨?_, ?_, ?_⟩
  · norm_num [calculateReturnsFromSnapshots, periodReturns]
  · norm_num
  · have h1 : List.filter (fun r => decide (r < 0)) [(1 : ℚ) / 10] = [] := by norm_num
    have hsd : calculateStandardDeviation
        (List.filter (fun r => decide (r < 0)) [(1 : ℚ) / 10]) = ((15 : ℝ) / 100) := by
      rw [h1, calculateStandardDeviation, if_pos (by norm_num)]
    have her : calculateExpectedReturn [(1 : ℚ) / 10] = 126 / 5 := by
      norm_num [calculateExpectedReturn]
    simp only [riskSortino, hsd, her]
    rw [if_pos (by norm_num : ((15 : ℝ) / 100) > 0)]
    rw [RISK_FREE_RATE]
    norm_num

/-- Witness for C4: the amended theorem applied to the single-return
series [0.10] and (for the zero branch) to the series [-0.1, -0.1] whose
two equal negative returns have zero sample deviation. -/
theorem C4_sortino_characterization_w :
    riskSortino [(1 : ℚ) / 10] =
      ((calculateExpectedReturn [(1 : ℚ) / 10] : ℝ) - (RISK_FREE_RATE : ℝ)) / (15 / 100) :=
  C4_sortino_characterization.1 [(1 : ℚ) / 10] (by norm_num)

/-- C5 evaluated at the failing input: a lot with cost basis 0 and a
truthy current price makes `unrealizedGainPercent` divide by zero, so the
produced ratio is the non-finite marker (JavaScript Infinity) instead of
a guarded finite value. -/
theorem C5_unrealized_gain_percent_nonfinite :
    ((calculateFIFOTaxLots [⟨1, 0, 0, 0, false⟩] 10 0).lots.map
      (fun r => r.unrealizedGainPercent)) = [none] := by
  norm_num [calculateFIFOTaxLots, analyzeLot, jsDiv]

/-! ## Helper lemmas: simulation pipeline -/

/-- Every base position enters the working set unflagged, so the
`isRemoved` filter keeps all of them. -/
lemma filter_not_isRemoved_toSim (positions : List Position) :
    (positions.map toSimPosition).filter (fun p => !p.isRemoved) =
      positions.map toSimPosition := by
  apply List.filter_eq_self.mpr
  intro p hp
  obtain ⟨q, hq, rfl⟩ := List.mem_map.mp hp
  rfl

/-- The standard deviation the engine computes is never negative: it is
either the 0.15 default or a product of square roots. -/
lemma calculateStandardDeviation_nonneg (returns : List ℚ) :
    0 ≤ calculateStandardDeviation returns := by
  rw [calculateStandardDeviation]
  split
  · norm_num
  · exact mul_nonneg (Real.sqrt_nonneg _) (Real.sqrt_nonneg _)

/-- The simulated-metrics Sharpe expression (guarded by `stdDev > 0`)
agrees with `calculateSharpe` (guarded by `stdDev = 0`), because the
standard deviation is non-negative. -/
lemma sharpe_guard_agree (returns : List ℚ) :
    (if calculateStandardDeviation returns > 0 then
      ((calculateExpectedReturn returns : ℝ) - (RISK_FREE_RATE : ℝ)) /
        calculateStandardDeviation returns
    else 0) = calculateSharpe returns := by
  simp only [calculateSharpe]
  by_cases h : calculateStandardDeviation returns = 0
  · rw [if_pos h, h]
    simp
  · have hpos : 0 < calculateStandardDeviation returns :=
      lt_of_le_of_ne (calculateStandardDeviation_nonneg returns) (Ne.symm h)
    rw [if_pos hpos, if_neg h]

/-! ## Claim theorems: what-if simulation -/

/-- C1 (amended): simulating with an empty change list reproduces the base
positions (same tickers and quantities, nothing flagged new or removed)
and zero change in expected return, risk and Sharpe; the total-value delta
is zero provided each stored market value agrees with
quantity × (currentPrice ?? avgCostBasis); but the max-drawdown delta is
−0.1 × the baseline drawdown and the beta delta is 1.1 − the baseline
beta, because `calculateSimulatedMetrics` scales the drawdown by 0.9 and
fixes beta at 1.1 unconditionally. -/
theorem C1_simulate_empty_changes (positions : List Position)
    (snapshots : List Snapshot) (jitter : List ℚ)
    (hmv : ∀ p ∈ positions,
      positionMarketValue p = p.quantity * decOr p.currentPrice p.avgCostBasis) :
    (simulateRoute positions snapshots jitter []).simulatedPositions.map
        SimOutput.ticker = positions.map Position.ticker ∧
    (simulateRoute positions snapshots jitter []).simulatedPositions.map
        SimOutput.quantity = positions.map Position.quantity ∧
    (∀ s ∈ (simulateRoute positions snapshots jitter []).simulatedPositions,
      s.isNew = false ∧ s.isRemoved = false) ∧
    (simulateRoute positions snapshots jitter []).delta.expectedReturn.change = 0 ∧
    (simulateRoute positions snapshots jitter []).delta.risk.change = 0 ∧
    (simulateRoute positions snapshots jitter []).delta.sharpe.change = 0 ∧
    (simulateRoute positions snapshots jitter []).delta.totalValue.change = 0 ∧
    (simulateRoute positions snapshots jitter []).delta.maxDrawdown.change =
      -(1 / 10) * calculateMaxDrawdown snapshots ∧
    (simulateRoute positions snapshots jitter []).delta.beta.change =
      11 / 10 - calculateBeta (calculateReturnsFromSnapshots snapshots) jitter := by
  have hnil : applySimulatedChanges positions [] =
      (positions.map toSimPosition).map (fun p =>
        { ticker := p.ticker, quantity := p.quantity, avgCostBasis := p.avgCostBasis,
          currentPrice := p.currentPrice, marketValue := simValue p,
          weight := if ((positions.map toSimPosition).map simValue).sum > 0 then
            simValue p / ((positions.map toSimPosition).map simValue).sum * 100 else 0,
          sector := p.sector, assetType := p.assetType,
          isNew := p.isNew, isRemoved := p.isRemoved }) := by
    simp only [applySimulatedChanges, List.foldl_nil, filter_not_isRemoved_toSim]
  have hnew : ((applySimulatedChanges positions []).any fun p => p.isNew) = false := by
    rw [hnil, List.any_eq_false]
    intro x hx
    obtain ⟨p, hp, rfl⟩ := List.mem_map.mp hx
    obtain ⟨q, hq, rfl⟩ := List.mem_map.mp hp
    simp [toSimPosition]
  have htv : ((applySimulatedChanges positions []).map
      (fun p => p.marketValue)).sum = (positions.map positionMarketValue).sum := by
    rw [hnil, List.map_map, List.map_map]
    congr 1
    apply List.map_congr_left
    intro p hp
    exact (hmv p hp).symm
  refine ⟨?_, ?_, ?_, ?_, ?_, ?_, ?_, ?_, ?_⟩
  · simp only [simulateRoute, List.map_map, hnil]
    rfl
  · simp only [simulateRoute, List.map_map, hnil]
    rfl
  · simp only [simulateRoute]
    intro s hs
    rw [hnil] at hs
    simp only [List.mem_map] at hs
    obtain ⟨p, hp, rfl⟩ := hs
    obtain ⟨q, hq, rfl⟩ := hp
    obtain ⟨r0, hr0, rfl⟩ := hq
    exact ⟨rfl, rfl⟩
  · simp only [simulateRoute, calculateSimulatedMetrics, calculatePortfolioMetrics, hnew,
      Bool.false_eq_true, if_false]
    exact sub_self _
  · simp only [simulateRoute, calculateSimulatedMetrics, calculatePortfolioMetrics, hnew,
      Bool.false_eq_true, if_false]
    exact sub_self _
  · simp only [simulateRoute, calculateSimulatedMetrics, calculatePortfolioMetrics, hnew,
      Bool.false_eq_true, if_false]
    rw [sharpe_guard_agree]
    exact sub_self _
  · simp only [simulateRoute, calculateSimulatedMetrics, calculatePortfolioMetrics, htv]
    exact sub_self _
  · simp only [simulateRoute, calculateSimulatedMetrics, calculatePortfolioMetrics]
    ring
  · simp only [simulateRoute, calculateSimulatedMetrics, calculatePortfolioMetrics]

/-- Witness for C1: the amended theorem applied to a single priced
position with no snapshot history. -/
theorem C1_simulate_empty_changes_w :
    (simulateRoute [⟨"A", 1, 50, some 100, none, "Technology", "STOCK"⟩]
        [] [] []).simulatedPositions.map SimOutput.ticker =
      [⟨"A", 1, 50, some 100, none, "Technology", "STOCK"⟩].map Position.ticker ∧
    (simulateRoute [⟨"A", 1, 50, some 100, none, "Technology", "STOCK"⟩]
        [] [] []).simulatedPositions.map SimOutput.quantity =
      [⟨"A", 1, 50, some 100, none, "Technology", "STOCK"⟩].map Position.quantity ∧
    (∀ s ∈ (simulateRoute [⟨"A", 1, 50, some 100, none, "Technology", "STOCK"⟩]
        [] [] []).simulatedPositions, s.isNew = false ∧ s.isRemoved = false) ∧
    (simulateRoute [⟨"A", 1, 50, some 100, none, "Technology", "STOCK"⟩]
        [] [] []).delta.expectedReturn.change = 0 ∧
    (simulateRoute [⟨"A", 1, 50, some 100, none, "Technology", "STOCK"⟩]
        [] [] []).delta.risk.change = 0 ∧
    (simulateRoute [⟨"A", 1, 50, some 100, none, "Technology", "STOCK"⟩]
        [] [] []).delta.sharpe.change = 0 ∧
    (simulateRoute [⟨"A", 1, 50, some 100, none, "Technology", "STOCK"⟩]
        [] [] []).delta.totalValue.change = 0 ∧
    (simulateRoute [⟨"A", 1, 50, some 100, none, "Technology", "STOCK"⟩]
        [] [] []).delta.maxDrawdown.change = -(1 / 10) * calculateMaxDrawdown [] ∧
    (simulateRoute [⟨"A", 1, 50, some 100, none, "Technology", "STOCK"⟩]
        [] [] []).delta.beta.change =
      11 / 10 - calculateBeta (calculateReturnsFromSnapshots []) [] :=
  C1_simulate_empty_changes
    [⟨"A", 1, 50, some 100, none, "Technology", "STOCK"⟩] [] []
    (by
      intro p hp
      simp only [List.mem_singleton] at hp
      subst hp
      rfl)

/-- Counterexample to C1 as stated: with an empty change list and the
snapshot values [100, 80] the baseline max drawdown is 0.2 but the
simulated one is scaled by 0.9, so the max-drawdown delta is −0.02, not
zero. -/
theorem C1_simulate_empty_changes_cex :
    (simulateRoute [] [⟨100⟩, ⟨80⟩] [] []).delta.maxDrawdown.change ≠ 0 := by
  have hmd : calculateMaxDrawdown [⟨100⟩, ⟨80⟩] = 1 / 5 := by
    norm_num [calculateMaxDrawdown, drawdownStep]
  simp only [simulateRoute, calculateSimulatedMetrics, calculatePortfolioMetrics, hmd]
  norm_num

/-- C2 evaluated at the failing input: an `add` of 10 shares at price 100
to an existing position of 10 shares at average cost 80 produces average
cost 260/3 ≈ 86.67 in the simulation (the source mutates the quantity
before reading it back as the old value), while the lot-addition route's
canonical weighted-average formula yields 90. -/
theorem C2_sim_add_cost_basis_diverges :
    ((applySimulatedChanges [⟨"AAPL", 10, 80, none, none, "Technology", "STOCK"⟩]
        [⟨"AAPL", .add, 10, some 100⟩]).map fun p => (p.quantity, p.avgCostBasis)) =
      [(20, 260 / 3)] ∧
    (addLotToPosition ⟨10, 80, [⟨10, 80, 0, 0, false⟩]⟩ 10 100 1).avgCostBasis = 90 ∧
    (260 : ℚ) / 3 ≠ 90 := by
  have hup : jsToUpper "AAPL" = "AAPL" := by decide
  refine ⟨?_, ?_, by norm_num⟩
  · norm_num [applySimulatedChanges, applyChange, hup, findTicker, updateTicker,
      applyAddExisting, toSimPosition, simValue, decOr]
  · norm_num [addLotToPosition]

/-- Counterexample to C3 as stated: removing the single position of the
base portfolio produces an *empty* `simulatedPositions` list — the
removed entry does not appear in the output at all. -/
theorem C3_remove_filtered_out_cex :
    applySimulatedChanges [⟨"AAPL", 10, 80, none, none, "Technology", "STOCK"⟩]
      [⟨"AAPL", .remove, 0, none⟩] = [] := by
  have hup : jsToUpper "AAPL" = "AAPL" := by decide
  norm_num [applySimulatedChanges, applyChange, hup, findTicker, updateTicker,
    toSimPosition]

/-- Inside the working set, mutating the matched entry keeps it a member
of the updated list. -/
lemma updateTicker_mem (t : String) (f : SimPosition → SimPosition) :
    ∀ m : List SimPosition, findTicker t m = true →
      ∃ p ∈ m, p.ticker = t ∧ f p ∈ updateTicker t f m := by
  intro m
  induction m with
  | nil =>
    intro h
    simp [findTicker] at h
  | cons p ps ih =>
    intro h
    by_cases hp : p.ticker = t
    · refine ⟨p, List.mem_cons_self p ps, hp, ?_⟩
      rw [updateTicker, if_pos hp]
      exact List.mem_cons_self _ _
    · have h2 : findTicker t ps = true := by
        simp only [findTicker, List.any_cons, Bool.or_eq_true, decide_eq_true_eq] at h
        rcases h with h | h
        · exact absurd h hp
        · exact h
      obtain ⟨q, hq, hqt, hmem⟩ := ih h2
      refine ⟨q, List.mem_cons_of_mem p hq, hqt, ?_⟩
      rw [updateTicker, if_neg hp]
      exact List.mem_cons_of_mem p hmem

/-- C3 (amended): a `remove` change on a present ticker marks the
working-set entry `isRemoved` with quantity zero, but entries flagged
`isRemoved` are filtered out before the weight pass, so no returned
simulated position is ever flagged removed — the removed entry does not
appear in the output. -/
theorem C3_remove_marks_then_filters :
    (∀ (m : List SimPosition) (c : Change), c.action = .remove →
      findTicker (jsToUpper c.ticker) m = true →
      ∃ p ∈ applyChange m c,
        p.ticker = jsToUpper c.ticker ∧ p.isRemoved = true ∧ p.quantity = 0) ∧
    (∀ (positions : List Position) (changes : List Change),
      ∀ p ∈ applySimulatedChanges positions changes, p.isRemoved = false) := by
  constructor
  · intro m c hact hfind
    obtain ⟨tick, act, qty, price⟩ := c
    simp only at hact
    subst hact
    simp only [applyChange, hfind, if_true]
    obtain ⟨p, hp, hpt, hmem⟩ :=
      updateTicker_mem (jsToUpper tick)
        (fun p => { p with isRemoved := true, quantity := 0 }) m hfind
    exact ⟨_, hmem, hpt, rfl, rfl⟩
  · intro positions changes p hp
    simp only [applySimulatedChanges, List.mem_map] at hp
    obtain ⟨q, hq, rfl⟩ := hp
    have hqr := List.of_mem_filter hq
    simp only [Bool.not_eq_eq_eq_not, Bool.not_true] at hqr
    exact hqr

/-- Witness for C3: the marking part applied to a one-entry working set
and the output part applied to the concrete remove simulation. -/
theorem C3_remove_marks_then_filters_w :
    (∃ p ∈ applyChange [⟨"AAPL", 10, 80, none, none, "Technology", "STOCK", false, false⟩]
        ⟨"AAPL", .remove, 0, none⟩,
      p.ticker = jsToUpper "AAPL" ∧ p.isRemoved = true ∧ p.quantity = 0) ∧
    (∀ p ∈ applySimulatedChanges [⟨"AAPL", 10, 80, none, none, "Technology", "STOCK"⟩]
        [⟨"AAPL", .remove, 0, none⟩], p.isRemoved = false) :=
  ⟨C3_remove_marks_then_filters.1
      [⟨"AAPL", 10, 80, none, none, "Technology", "STOCK", false, false⟩]
      ⟨"AAPL", .remove, 0, none⟩ rfl (by decide),
    C3_remove_marks_then_filters.2
      [⟨"AAPL", 10, 80, none, none, "Technology", "STOCK"⟩]
      [⟨"AAPL", .remove, 0, none⟩]⟩

/-- C10: a `remove` or `adjust` change whose (upper-cased) ticker is
absent from the working set leaves the working set unchanged — no error
is raised and no simulated position is created — and therefore the
simulation output with that change inserted anywhere equals the output
without it. -/
theorem C10_absent_ticker_ignored :
    (∀ (m : List SimPosition) (c : Change),
      (c.action = .remove ∨ c.action = .adjust) →
      findTicker (jsToUpper c.ticker) m = false →
      applyChange m c = m) ∧
    (∀ (positions : List Position) (cs1 cs2 : List Change) (c : Change),
      (c.action = .remove ∨ c.action = .adjust) →
      findTicker (jsToUpper c.ticker)
        (cs1.foldl applyChange (positions.map toSimPosition)) = false →
      applySimulatedChanges positions (cs1 ++ c :: cs2) =
        applySimulatedChanges positions (cs1 ++ cs2)) := by
  have hstep : ∀ (m : List SimPosition) (c : Change),
      (c.action = .remove ∨ c.action = .adjust) →
      findTicker (jsToUpper c.ticker) m = false → applyChange m c = m := by
    intro m c hact hfind
    obtain ⟨tick, act, qty, price⟩ := c
    simp only at hact hfind
    rcases hact with h | h
    · subst h
      simp only [applyChange, hfind, Bool.false_eq_true, if_false]
    · subst h
      simp only [applyChange, hfind, Bool.false_eq_true, if_false]
  refine ⟨hstep, ?_⟩
  intro positions cs1 cs2 c hact hfind
  simp only [applySimulatedChanges, List.foldl_append, List.foldl_cons,
    hstep _ c hact hfind]

/-- Witness for C10: an `adjust` on the absent ticker MSFT is a no-op on
a one-entry working set, and inserting it into a change list leaves the
simulation output unchanged. -/
theorem C10_absent_ticker_ignored_w :
    applyChange [⟨"AAPL", 10, 80, none, none, "Technology", "STOCK", false, false⟩]
        ⟨"MSFT", .adjust, 5, none⟩ =
      [⟨"AAPL", 10, 80, none, none, "Technology", "STOCK", false, false⟩] ∧
    applySimulatedChanges [⟨"AAPL", 10, 80, none, none, "Technology", "STOCK"⟩]
        ([] ++ ⟨"MSFT", .adjust, 5, none⟩ :: []) =
      applySimulatedChanges [⟨"AAPL", 10, 80, none, none, "Technology", "STOCK"⟩]
        ([] ++ []) :=
  ⟨C10_absent_ticker_ignored.1
      [⟨"AAPL", 10, 80, none, none, "Technology", "STOCK", false, false⟩]
      ⟨"MSFT", .adjust, 5, none⟩ (Or.inr rfl) (by decide),
    C10_absent_ticker_ignored.2
      [⟨"AAPL", 10, 80, none, none, "Technology", "STOCK"⟩] [] []
      ⟨"MSFT", .adjust, 5, none⟩ (Or.inr rfl) (by decide)⟩

end QuantVault
